import Mathlib

/-!
Verification of the dittonetwork indexer core against its source.

The embedding models the MongoDB document store as explicit Lean state
(`DB`), the event reducers of `src/events/parsers.py` as functions
`DB → DB` (the two WASM reducers, which raise `AttributeError` on the
undeclared `EventType` members, as `Except String DB`), the filler
workers of `src/workers/meta_filler.py` and
`src/workers/wasm_filler.py` as per-item step functions, and the chain
synchronization worker of `src/workers/chain_worker.py` as a batched
cursor-advancing process.  Machine integers are modelled as `Nat`/`Int`
(Python ints are unbounded, so no wrap-around is needed), MongoDB
ObjectIds as the index of the inserted log document, ISO timestamps as
opaque `String`s, and `datetime.utcnow()` instants as `Nat`.
-/

/- JSON values, as returned by `requests.Response.json()` and stored in
the `meta` field of a workflow.  `JsonFields` mirrors a Python dict as an
ordered association list; `JsonList` mirrors a Python list. -/
mutual

inductive Json where
  | null : Json
  | bool (b : Bool) : Json
  | num (n : Int) : Json
  | str (s : String) : Json
  | arr (xs : JsonList) : Json
  | obj (fs : JsonFields) : Json

inductive JsonList where
  | nil : JsonList
  | cons (hd : Json) (tl : JsonList) : JsonList

inductive JsonFields where
  | nil : JsonFields
  | cons (k : String) (v : Json) (tl : JsonFields) : JsonFields

end

/-- Lookup of a key in a JSON object's field list (Python `dict.get`,
first occurrence). -/
def jsonFieldsGet : JsonFields → String → Option Json
  | JsonFields.nil, _ => none
  | JsonFields.cons k v tl, key => if k = key then some v else jsonFieldsGet tl key

/-- Model of the lookup `meta.get("workflow").get("count")` (each with an
empty-dict default) as used by the Run reducers and
the metadata filler: the declared execution count of a workflow, when the
stored metadata is a dict holding a dict `workflow` with a numeric
`count`.  (A non-numeric `count` would raise a `TypeError` at the Python
comparison, aborting the enclosing transaction; such metadata therefore
never changes state and is modelled as "no count".) -/
def metaWorkflowCount (meta : Option Json) : Option Int :=
  match meta with
  | some (Json.obj fs) =>
    match jsonFieldsGet fs "workflow" with
    | some (Json.obj wfs) =>
      match jsonFieldsGet wfs "count" with
      | some (Json.num n) => some n
      | _ => none
    | _ => none
  | _ => none

/-- Transaction-receipt excerpt stored inside a Run/RunWithMetadata log
document (`parsers.py`: `gasUsed`, `gasPrice = effectiveGasPrice or
gasPrice`, `from`). -/
structure TxReceiptExcerpt where
  gasUsed : Option Int
  gasPrice : Option Int
  from_addr : Option String
  deriving Repr, DecidableEq

/-- Raw transaction receipt as returned by
`web3.eth.get_transaction_receipt`. -/
structure TxReceipt where
  gasUsed : Option Int := none
  effectiveGasPrice : Option Int := none
  gasPrice : Option Int := none
  from_addr : Option String := none
  deriving Repr, DecidableEq

/-- Python `a or b` on optional ints: `None` and `0` are falsy. -/
def pyOrInt (a b : Option Int) : Option Int :=
  match a with
  | none => b
  | some v => if v = 0 then b else some v

/-- The excerpt computed by the reducers from a fetched receipt. -/
def receiptExcerpt (r : TxReceipt) : TxReceiptExcerpt :=
  { gasUsed := r.gasUsed
    gasPrice := pyOrInt r.effectiveGasPrice r.gasPrice
    from_addr := r.from_addr }

/-- A document of the `logs` collection (`LogEvent` in the spec).
Fields that a given reducer does not write are `none`, matching fields
absent from the Mongo document. -/
structure LogEvent where
  event : String
  chain_id : Nat
  blocknumber : Nat
  transaction_hash : String
  ipfs_hash : Option String := none
  job_id : Option Nat := none
  nonce : Option Nat := none
  wasm_id : Option String := none
  old_ipfs_hash : Option String := none
  new_ipfs_hash : Option String := none
  owner : Option String := none
  timestamp : String
  tx_receipt : Option TxReceiptExcerpt := none
  deriving Repr, DecidableEq

/-- A document of the `workflows` collection.  `chains_runs` is the
Mongo sub-document mapping chain-id strings to counters, kept as an
ordered association list exactly as Python dicts preserve insertion
order. -/
structure Workflow where
  ipfs_hash : String
  create_event_id : Nat
  has_meta : Bool
  runs : Nat
  chains_runs : List (String × Nat)
  is_cancelled : Bool
  meta : Option Json := none
  cancel_event_id : Option Nat := none
  meta_fetch_last_failed : Option Nat := none
  meta_fetch_failure_count : Option Nat := none

/-- One entry of a WASM module's `update_history` array. -/
structure UpdateHistoryEntry where
  old_ipfs_hash : String
  new_ipfs_hash : String
  update_event_id : Nat
  timestamp : String
  chain_id : Nat
  deriving Repr, DecidableEq

/-- A document of the `wasm_modules` collection. -/
structure WasmModule where
  wasm_id : String
  ipfs_hash : String
  owner : String
  create_event_id : Nat
  chain_id : Nat
  has_wasm : Bool
  update_event_id : Option Nat := none
  update_history : List UpdateHistoryEntry := []
  wasm_code : Option (List Nat) := none
  wasm_code_size : Option Nat := none
  wasm_fetch_last_failed : Option Nat := none
  wasm_fetch_failure_count : Option Nat := none

/-- A document of the `chains` collection. -/
structure Chain where
  global_chain_id : Nat
  last_processed_block : Nat
  wasm_last_processed_block : Nat
  is_synced : Bool
  deriving Repr, DecidableEq

/-- The four collections of the document store. -/
structure DB where
  chains : List Chain := []
  logs : List LogEvent := []
  workflows : List Workflow := []
  wasm_modules : List WasmModule := []

/-- Mongo `update_one`: apply `f` to the first element satisfying `p`,
leaving everything else in place. -/
def updateFirst {α : Type} (l : List α) (p : α → Bool) (f : α → α) : List α :=
  match l with
  | [] => []
  | x :: xs => if p x then f x :: xs else x :: updateFirst xs p f

/-- Model of `Database.insert_log`: append to the `logs` collection; the returned
`inserted_id` is modelled as the index of the new document. -/
def insert_log (db : DB) (l : LogEvent) : Nat × DB :=
  (db.logs.length, { db with logs := db.logs ++ [l] })

/-- Model of `Database.find_workflow_by_ipfs`: `find_one` on `ipfs_hash`. -/
def find_workflow_by_ipfs (db : DB) (h : String) : Option Workflow :=
  db.workflows.find? (fun w => w.ipfs_hash == h)

/-- Model of `Database.insert_workflow`. -/
def insert_workflow (db : DB) (w : Workflow) : DB :=
  { db with workflows := db.workflows ++ [w] }

/-- Model of `Database.update_workflow`: `update_one` with a `$set` on the first
document matching `ipfs_hash`, modelled as a field-update function. -/
def update_workflow (db : DB) (h : String) (f : Workflow → Workflow) : DB :=
  { db with workflows := updateFirst db.workflows (fun w => w.ipfs_hash == h) f }

/-- Model of `Database.find_wasm_by_id`. -/
def find_wasm_by_id (db : DB) (i : String) : Option WasmModule :=
  db.wasm_modules.find? (fun m => m.wasm_id == i)

/-- Model of `Database.insert_wasm`. -/
def insert_wasm (db : DB) (m : WasmModule) : DB :=
  { db with wasm_modules := db.wasm_modules ++ [m] }

/-- Model of `Database.update_wasm`: `update_one` on the first document matching
`wasm_id` ( `$set` fields and the `$unset` of `wasm_code` /
`wasm_code_size` both become field updates). -/
def update_wasm (db : DB) (i : String) (f : WasmModule → WasmModule) : DB :=
  { db with wasm_modules := updateFirst db.wasm_modules (fun m => m.wasm_id == i) f }

/-- Model of `Database.has_run_event_with_nonce`: does a log with this
`ipfs_hash`, this `nonce` and event kind `"Run"` exist? -/
def has_run_event_with_nonce (db : DB) (h : String) (n : Nat) : Bool :=
  db.logs.any (fun l => l.ipfs_hash == some h && l.nonce == some n && l.event == "Run")

/-- Decoded event arguments (`event["args"]`); each reducer reads only
the keys its event carries. -/
structure EventArgs where
  ipfsHash : String := ""
  jobId : Nat := 0
  nonce : Nat := 0
  id : String := ""
  oldIpfsHash : String := ""
  newIpfsHash : String := ""
  owner : String := ""
  deriving Repr, DecidableEq

/-- A decoded event as handed to a reducer: `args`, `blockNumber` and the
transaction hash (whose hex rendering the reducers prefix with `"0x"`). -/
structure PyEvent where
  args : EventArgs
  blockNumber : Nat
  transactionHash : String
  deriving Repr, DecidableEq

/-- Values of the four members `EventType` in `config.py` actually
declares.  `parsers.py` and `chain_worker.py` additionally reference
`EventType.WASM_CREATED` / `EventType.WASM_UPDATED`, which do not
exist; that access is modelled by `eventTypeAttr` below and raises
`AttributeError`. -/
def EventType.CREATED : String := "Created"

def EventType.RUN : String := "Run"

def EventType.RUN_WITH_METADATA : String := "RunWithMetadata"

def EventType.CANCELLED : String := "Cancelled"

/-- The declared members of `EventType` in `config.py`, member name to
string value. -/
def eventTypeMembers : List (String × String) :=
  [("CREATED", EventType.CREATED), ("RUN", EventType.RUN),
   ("RUN_WITH_METADATA", EventType.RUN_WITH_METADATA), ("CANCELLED", EventType.CANCELLED)]

/-- Python attribute access `EventType.<name>` on the enum: the member's
value when it is declared, an `AttributeError` otherwise.  In
particular `eventTypeAttr "WASM_CREATED"` and
`eventTypeAttr "WASM_UPDATED"` fail, which is what the shipped WASM
reducers run into. -/
def eventTypeAttr (name : String) : Except String String :=
  match eventTypeMembers.find? (fun p => p.1 == name) with
  | some p => Except.ok p.2
  | none => Except.error ("AttributeError: " ++ name)

/-- Python `max` over the values of a non-empty counter dict (all values
are naturals, so folding from `0` agrees with `max`). -/
def pyMax (l : List Nat) : Nat := l.foldl max 0

/-- Python dict lookup in `chains_runs`. -/
def dictGet (m : List (String × Nat)) (k : String) : Option Nat :=
  (m.find? (fun p => p.1 == k)).map Prod.snd

/-- Python dict assignment `d[k] = v`: overwrite in place if the key is
present, else append. -/
def dictSet (m : List (String × Nat)) (k : String) (v : Nat) : List (String × Nat) :=
  match m with
  | [] => [(k, v)]
  | (k', v') :: rest => if k' == k then (k, v) :: rest else (k', v') :: dictSet rest k v

/-- The run-counting block shared verbatim by `parse_run` and
`parse_run_with_metadata` (`parsers.py` lines 79–105 / 141–167): flat
pre-migration increment when `runs > 0` with empty `chains_runs`,
otherwise bump the current chain's counter and recompute `runs` as the
max across chains; finally cancel when the metadata's declared execution
count is reached. -/
def runUpdate (wf : Workflow) (chain_id : Nat) : Workflow :=
  let current_runs := wf.runs
  let chains_runs := wf.chains_runs
  let upd :=
    if 0 < current_runs ∧ chains_runs.isEmpty then
      { wf with runs := current_runs + 1 }
    else
      let chain_id_str := toString chain_id
      let cr := dictSet chains_runs chain_id_str ((dictGet chains_runs chain_id_str).getD 0 + 1)
      let new_runs := if cr.isEmpty then 1 else pyMax (cr.map Prod.snd)
      { wf with runs := new_runs, chains_runs := cr }
  match metaWorkflowCount wf.meta with
  | some count => if (upd.runs : Int) ≥ count then { upd with is_cancelled := true } else upd
  | none => upd

/-- Model of `parse_created` (`parsers.py`): insert the log, then insert a fresh
workflow only when none with this `ipfs_hash` exists. -/
def parse_created (e : PyEvent) (chain_id : Nat) (timestamp : String) (db : DB) : DB :=
  let ipfs_hash := e.args.ipfsHash
  let log_doc : LogEvent :=
    { event := EventType.CREATED
      chain_id := chain_id
      blocknumber := e.blockNumber
      transaction_hash := "0x" ++ e.transactionHash
      ipfs_hash := some ipfs_hash
      timestamp := timestamp }
  let res := insert_log db log_doc
  let db1 := res.2
  match find_workflow_by_ipfs db1 ipfs_hash with
  | some _ => db1
  | none =>
    insert_workflow db1
      { ipfs_hash := ipfs_hash
        create_event_id := res.1
        has_meta := false
        runs := 0
        chains_runs := []
        is_cancelled := false }

/-- Model of `parse_run_with_metadata` (`parsers.py`): build the log document
(kind `EventType.RUN`, with `job_id` and `nonce`), apply the counting
update only when the workflow exists and no Run-kind log with the same
`(ipfs_hash, nonce)` is already stored, and insert the log last. -/
def parse_run_with_metadata (e : PyEvent) (chain_id : Nat) (timestamp : String)
    (db : DB) (tx_receipt : Option TxReceipt) : DB :=
  let ipfs_hash := e.args.ipfsHash
  let log_doc : LogEvent :=
    { event := EventType.RUN
      chain_id := chain_id
      blocknumber := e.blockNumber
      transaction_hash := "0x" ++ e.transactionHash
      ipfs_hash := some ipfs_hash
      job_id := some e.args.jobId
      nonce := some e.args.nonce
      timestamp := timestamp
      tx_receipt := tx_receipt.map receiptExcerpt }
  let db1 :=
    match find_workflow_by_ipfs db ipfs_hash with
    | some wf =>
      if has_run_event_with_nonce db ipfs_hash e.args.nonce then db
      else update_workflow db wf.ipfs_hash (fun w => runUpdate w chain_id)
    | none => db
  (insert_log db1 log_doc).2

/-- Model of `parse_run` (`parsers.py`): legacy Run without nonce deduplication;
the counting update is applied whenever the workflow exists, and the log
is inserted last. -/
def parse_run (e : PyEvent) (chain_id : Nat) (timestamp : String)
    (db : DB) (tx_receipt : Option TxReceipt) : DB :=
  let ipfs_hash := e.args.ipfsHash
  let log_doc : LogEvent :=
    { event := EventType.RUN
      chain_id := chain_id
      blocknumber := e.blockNumber
      transaction_hash := "0x" ++ e.transactionHash
      ipfs_hash := some ipfs_hash
      timestamp := timestamp
      tx_receipt := tx_receipt.map receiptExcerpt }
  let db1 :=
    match find_workflow_by_ipfs db ipfs_hash with
    | some wf => update_workflow db wf.ipfs_hash (fun w => runUpdate w chain_id)
    | none => db
  (insert_log db1 log_doc).2

/-- Model of `parse_cancelled` (`parsers.py`): insert the log; if the workflow
exists and is not already cancelled, set `is_cancelled` and record the
cancel log reference. -/
def parse_cancelled (e : PyEvent) (chain_id : Nat) (timestamp : String) (db : DB) : DB :=
  let ipfs_hash := e.args.ipfsHash
  let log_doc : LogEvent :=
    { event := EventType.CANCELLED
      chain_id := chain_id
      blocknumber := e.blockNumber
      transaction_hash := "0x" ++ e.transactionHash
      ipfs_hash := some ipfs_hash
      timestamp := timestamp }
  let res := insert_log db log_doc
  let db1 := res.2
  match find_workflow_by_ipfs db1 ipfs_hash with
  | none => db1
  | some wf =>
    if wf.is_cancelled then db1
    else
      update_workflow db1 wf.ipfs_hash
        (fun w => { w with is_cancelled := true, cancel_event_id := some res.1 })

/-- Model of `parse_wasm_created` (`parsers.py` lines 200–234): building
the log document reads `EventType.WASM_CREATED` (line 213), a member
`config.py`'s `EventType` does not declare, so the shipped function
raises `AttributeError` before inserting the log or the module and has
no store effect.  The remainder of the body (log insert, duplicate
check, module insert) is the source's dead continuation, reached only
if the attribute lookup succeeded. -/
def parse_wasm_created (e : PyEvent) (chain_id : Nat) (timestamp : String) (db : DB) :
    Except String DB :=
  let wasm_id := e.args.id
  match eventTypeAttr "WASM_CREATED" with
  | Except.error msg => Except.error msg
  | Except.ok kind =>
    let log_doc : LogEvent :=
      { event := kind
        chain_id := chain_id
        blocknumber := e.blockNumber
        transaction_hash := "0x" ++ e.transactionHash
        wasm_id := some wasm_id
        ipfs_hash := some e.args.ipfsHash
        owner := some e.args.owner
        timestamp := timestamp }
    let res := insert_log db log_doc
    let db1 := res.2
    match find_wasm_by_id db1 wasm_id with
    | some _ => Except.ok db1
    | none =>
      Except.ok (insert_wasm db1
        { wasm_id := wasm_id
          ipfs_hash := e.args.ipfsHash
          owner := e.args.owner
          create_event_id := res.1
          chain_id := chain_id
          has_wasm := false })

/-- Model of `parse_wasm_updated` (`parsers.py` lines 237–281): building
the log document reads `EventType.WASM_UPDATED` (line 249), a member
`config.py`'s `EventType` does not declare, so the shipped function
raises `AttributeError` before inserting the log, appending to
`update_history` or touching the module.  The remainder of the body is
the source's dead continuation, reached only if the attribute lookup
succeeded. -/
def parse_wasm_updated (e : PyEvent) (chain_id : Nat) (timestamp : String) (db : DB) :
    Except String DB :=
  let wasm_id := e.args.id
  let old_ipfs_hash := e.args.oldIpfsHash
  let new_ipfs_hash := e.args.newIpfsHash
  match eventTypeAttr "WASM_UPDATED" with
  | Except.error msg => Except.error msg
  | Except.ok kind =>
    let log_doc : LogEvent :=
      { event := kind
        chain_id := chain_id
        blocknumber := e.blockNumber
        transaction_hash := "0x" ++ e.transactionHash
        wasm_id := some wasm_id
        old_ipfs_hash := some old_ipfs_hash
        new_ipfs_hash := some new_ipfs_hash
        timestamp := timestamp }
    let res := insert_log db log_doc
    let db1 := res.2
    match find_wasm_by_id db1 wasm_id with
    | none => Except.ok db1
    | some _ =>
      Except.ok (update_wasm db1 wasm_id (fun m =>
        { m with
          ipfs_hash := new_ipfs_hash
          update_event_id := some res.1
          update_history := m.update_history ++
            [{ old_ipfs_hash := old_ipfs_hash
               new_ipfs_hash := new_ipfs_hash
               update_event_id := res.1
               timestamp := timestamp
               chain_id := chain_id }]
          has_wasm := false
          wasm_code := none
          wasm_code_size := none }))

/-- The per-key test inside `has_invalid_mongo_keys`
(`meta_filler.py`): `"." in k or (k and k[0] == "$")`.  Membership of
the one-character needle `"."` is membership of the character `'.'` in
the key, and the truthiness guard on `k` is exactly `head?` returning a
character. -/
def isInvalidMongoKey (k : String) : Bool :=
  k.data.contains '.' || k.data.head? == some '$'

/- `has_invalid_mongo_keys` (`meta_filler.py`): depth-first search for the
first dict key containing `'.'` or starting with `'$'`, returning its
path; `None` when every key is acceptable.  List elements contribute
their index (as a string) to the path. -/
mutual

def has_invalid_mongo_keys : Json → List String → Option (List String)
  | Json.obj fs, path => hasInvalidKeysFields fs path
  | Json.arr xs, path => hasInvalidKeysList xs 0 path
  | _, _ => none
termination_by structural j _ => j

def hasInvalidKeysFields : JsonFields → List String → Option (List String)
  | JsonFields.nil, _ => none
  | JsonFields.cons k v tl, path =>
    if isInvalidMongoKey k then some (path ++ [k])
    else
      match has_invalid_mongo_keys v (path ++ [k]) with
      | some r => some r
      | none => hasInvalidKeysFields tl path
termination_by structural fs _ => fs

def hasInvalidKeysList : JsonList → Nat → List String → Option (List String)
  | JsonList.nil, _, _ => none
  | JsonList.cons x rest, idx, path =>
    match has_invalid_mongo_keys x (path ++ [toString idx]) with
    | some r => some r
    | none => hasInvalidKeysList rest (idx + 1) path
termination_by structural xs _ _ => xs

end

/- Specification-side predicate: the payload contains, at any depth of
its dict/list structure, a dictionary key containing `'.'` or beginning
with `'$'`.  Written independently of the traversal order of
`has_invalid_mongo_keys` so the two can be compared. -/
mutual

def hasBadKey : Json → Bool
  | Json.obj fs => hasBadKeyFields fs
  | Json.arr xs => hasBadKeyList xs
  | _ => false
termination_by structural j => j

def hasBadKeyFields : JsonFields → Bool
  | JsonFields.nil => false
  | JsonFields.cons k v tl => isInvalidMongoKey k || hasBadKey v || hasBadKeyFields tl
termination_by structural fs => fs

def hasBadKeyList : JsonList → Bool
  | JsonList.nil => false
  | JsonList.cons x rest => hasBadKey x || hasBadKeyList rest
termination_by structural xs => xs

end

/-- Model of `Database.mark_workflow_meta_failure`: `$set` the failure timestamp
and `$inc` the failure counter (a Mongo `$inc` on an absent field starts
from 0). -/
def mark_workflow_meta_failure (db : DB) (h : String) (now : Nat) : DB :=
  update_workflow db h (fun w =>
    { w with
      meta_fetch_last_failed := some now
      meta_fetch_failure_count := some ((w.meta_fetch_failure_count.getD 0) + 1) })

/-- Model of `Database.clear_workflow_meta_failures`: `$unset` both tracking
fields. -/
def clear_workflow_meta_failures (db : DB) (h : String) : DB :=
  update_workflow db h (fun w =>
    { w with meta_fetch_last_failed := none, meta_fetch_failure_count := none })

/-- One iteration of the per-workflow loop body of `meta_filler_worker`
(`meta_filler.py`).  `wfDoc` is the document fetched by the batch query;
`fetched` is the outcome of `fetch_ipfs_meta` (`none` covers an invalid
CID, a network failure, and non-JSON bodies); `now` is the instant used
for failure timestamps.  A payload with store-incompatible keys is
rejected by recording a failure; a valid payload is stored, `has_meta`
is flipped, cancellation is applied when the declared execution count is
already met by the fetched document's `runs`, and failure tracking is
cleared. -/
def metaFillerProcessItem (db : DB) (wfDoc : Workflow) (fetched : Option Json) (now : Nat) : DB :=
  match fetched with
  | none => mark_workflow_meta_failure db wfDoc.ipfs_hash now
  | some meta =>
    match has_invalid_mongo_keys meta [] with
    | some _ => mark_workflow_meta_failure db wfDoc.ipfs_hash now
    | none =>
      let current_runs := wfDoc.runs
      let cancelled : Bool :=
        match metaWorkflowCount (some meta) with
        | some count => decide ((current_runs : Int) ≥ count)
        | none => false
      let db1 := update_workflow db wfDoc.ipfs_hash (fun w =>
        if cancelled then { w with meta := some meta, has_meta := true, is_cancelled := true }
        else { w with meta := some meta, has_meta := true })
      clear_workflow_meta_failures db1 wfDoc.ipfs_hash

/-- The whole per-batch loop of `meta_filler_worker`: items are
processed in order and one item's rejection never stops the rest. -/
def metaFillerBatch (db : DB) (items : List (Workflow × Option Json)) (now : Nat) : DB :=
  match items with
  | [] => db
  | (wfDoc, fetched) :: rest => metaFillerBatch (metaFillerProcessItem db wfDoc fetched now) rest now

/-- Model of `Database.mark_wasm_fetch_failure`. -/
def mark_wasm_fetch_failure (db : DB) (i : String) (now : Nat) : DB :=
  update_wasm db i (fun m =>
    { m with
      wasm_fetch_last_failed := some now
      wasm_fetch_failure_count := some ((m.wasm_fetch_failure_count.getD 0) + 1) })

/-- Model of `Database.clear_wasm_fetch_failures`. -/
def clear_wasm_fetch_failures (db : DB) (i : String) : DB :=
  update_wasm db i (fun m =>
    { m with wasm_fetch_last_failed := none, wasm_fetch_failure_count := none })

/-- The four magic bytes `b"\x00asm"` every WASM binary starts with. -/
def wasmMagic : List Nat := [0x00, 0x61, 0x73, 0x6d]

/-- One iteration of the per-module loop body of `wasm_filler_worker`
(`wasm_filler.py`).  `fetched` is the outcome of `fetch_ipfs_wasm`
(`none` covers an invalid CID and a network failure).  A payload shorter
than 4 bytes or not starting with the WASM magic header is rejected by
recording a failure; a valid payload is stored together with its length,
`has_wasm` is flipped and failure tracking is cleared. -/
def wasmFillerProcessItem (db : DB) (wasmDoc : WasmModule) (fetched : Option (List Nat)) (now : Nat) : DB :=
  match fetched with
  | none => mark_wasm_fetch_failure db wasmDoc.wasm_id now
  | some wasm_code =>
    if wasm_code.length < 4 ∨ wasm_code.take 4 ≠ wasmMagic then
      mark_wasm_fetch_failure db wasmDoc.wasm_id now
    else
      let db1 := update_wasm db wasmDoc.wasm_id (fun m =>
        { m with
          wasm_code := some wasm_code
          wasm_code_size := some wasm_code.length
          has_wasm := true })
      clear_wasm_fetch_failures db1 wasmDoc.wasm_id

/-- The whole per-batch loop of `wasm_filler_worker`: items are
processed in order and one item's rejection never stops the rest. -/
def wasmFillerBatch (db : DB) (items : List (WasmModule × Option (List Nat))) (now : Nat) : DB :=
  match items with
  | [] => db
  | (wasmDoc, fetched) :: rest => wasmFillerBatch (wasmFillerProcessItem db wasmDoc fetched now) rest now

/-- A raw log as returned by `web3.eth.get_logs`: its topic-0 hash, its
block number, its transaction hash and — standing for the raw
topic/data bytes — the argument record the registered decoder would
produce for it. -/
structure RawLog where
  topic0 : String
  blockNumber : Nat
  transactionHash : String
  argsOf : EventArgs
  deriving Repr, DecidableEq

/-- Model of `decoder.process_log(raw)`: the decoded event carries the decoded
arguments together with the raw log's block number and transaction
hash. -/
def decodeLog (raw : RawLog) : PyEvent :=
  { args := raw.argsOf, blockNumber := raw.blockNumber, transactionHash := raw.transactionHash }

/-- The decoder cache `_topic_map` (and `_wasm_topic_map`): topic-0 hash
to event name. -/
def topicLookup (tm : List (String × String)) (t : String) : Option String :=
  (tm.find? (fun p => p.1 == t)).map Prod.snd

/-- The receipt fetched for an event about to be dispatched: only Run
and RunWithMetadata kinds trigger `get_transaction_receipt`
(`chain_worker.py` line 154). -/
def receiptFor (rcptOracle : String → Option TxReceipt) (name : String) (raw : RawLog) :
    Option TxReceipt :=
  if name = EventType.RUN ∨ name = EventType.RUN_WITH_METADATA then
    rcptOracle raw.transactionHash
  else none

/-- The decode loop of `ChainWorker._process_registry_batch`: a raw log
whose topic-0 hash is not in the topic map is dropped silently, a
recognized log whose block timestamp cannot be fetched
(`get_block_timestamp` returned `None`) is dropped with a warning, and
every remaining log is decoded and paired with its timestamp and (for
Run kinds) its transaction receipt. -/
def collectDecodedEvents (tm : List (String × String)) (tsOracle : Nat → Option String)
    (rcptOracle : String → Option TxReceipt) (rawLogs : List RawLog) :
    List (String × PyEvent × String × Option TxReceipt) :=
  rawLogs.filterMap (fun raw =>
    match topicLookup tm raw.topic0 with
    | none => none
    | some name =>
      match tsOracle raw.blockNumber with
      | none => none
      | some ts => some (name, decodeLog raw, ts, receiptFor rcptOracle name raw))

/-- The reducer dispatch of `_process_registry_batch` (one decoded main
registry event). -/
def applyRegistryEvent (chain_id : Nat) (db : DB)
    (x : String × PyEvent × String × Option TxReceipt) : DB :=
  let (name, evt, timestamp, tx_receipt) := x
  if name = EventType.CREATED then parse_created evt chain_id timestamp db
  else if name = EventType.RUN then parse_run evt chain_id timestamp db tx_receipt
  else if name = EventType.RUN_WITH_METADATA then
    parse_run_with_metadata evt chain_id timestamp db tx_receipt
  else if name = EventType.CANCELLED then parse_cancelled evt chain_id timestamp db
  else db

/-- The reducer dispatch of `_process_wasm_batch` (one decoded WASM
registry event), threading the raised exception: the dispatch itself
compares `name == EventType.WASM_CREATED.value` (`chain_worker.py`
line 239), an attribute read that raises `AttributeError` in the
shipped tree before any reducer runs; an earlier event's exception
short-circuits the loop. -/
def applyWasmEvent (chain_id : Nat) (acc : Except String DB)
    (x : String × PyEvent × String × Option TxReceipt) : Except String DB :=
  match acc with
  | Except.error msg => Except.error msg
  | Except.ok db =>
    let (name, evt, timestamp, _) := x
    match eventTypeAttr "WASM_CREATED" with
    | Except.error msg => Except.error msg
    | Except.ok kcreated =>
      if name = kcreated then parse_wasm_created evt chain_id timestamp db
      else
        match eventTypeAttr "WASM_UPDATED" with
        | Except.error msg => Except.error msg
        | Except.ok kupdated =>
          if name = kupdated then parse_wasm_updated evt chain_id timestamp db
          else Except.ok db

/-- Model of `Database.update_chain_last_processed`. -/
def update_chain_last_processed (db : DB) (chain_id : Nat) (block_number : Nat) : DB :=
  { db with chains := (updateFirst db.chains (fun c => c.global_chain_id == chain_id)
      (fun c => { c with last_processed_block := block_number })) }

/-- Model of `Database.update_chain_wasm_last_processed`. -/
def update_chain_wasm_last_processed (db : DB) (chain_id : Nat) (block_number : Nat) : DB :=
  { db with chains := (updateFirst db.chains (fun c => c.global_chain_id == chain_id)
      (fun c => { c with wasm_last_processed_block := block_number })) }

/-- Model of `ChainWorker._process_registry_batch`, committed form: inside one
transaction, every decoded event's reducer runs in order and the main
cursor is then persisted to `batch_end`. -/
def processRegistryBatch (chain_id : Nat) (tm : List (String × String))
    (tsOracle : Nat → Option String) (rcptOracle : String → Option TxReceipt)
    (rawLogs : List RawLog) (batch_end : Nat) (db : DB) : DB :=
  let decoded := collectDecodedEvents tm tsOracle rcptOracle rawLogs
  update_chain_last_processed (decoded.foldl (applyRegistryEvent chain_id) db) chain_id batch_end

/-- Model of `ChainWorker._process_wasm_batch`: inside one transaction,
every decoded event is dispatched in order; a raised exception
(`Except.error`) aborts the transaction before the WASM cursor is
persisted, while a clean run persists the cursor to `batch_end` in the
same transaction. -/
def processWasmBatch (chain_id : Nat) (tm : List (String × String))
    (tsOracle : Nat → Option String) (rawLogs : List RawLog) (batch_end : Nat) (db : DB) :
    Except String DB :=
  let decoded := collectDecodedEvents tm tsOracle (fun _ => none) rawLogs
  match decoded.foldl (applyWasmEvent chain_id) (Except.ok db) with
  | Except.error msg => Except.error msg
  | Except.ok db1 => Except.ok (update_chain_wasm_last_processed db1 chain_id batch_end)

/-- One attempt at a registry batch: the enclosing `db_session`
transaction commits reducer effects and cursor together (`ok = true`),
or aborts leaving the store untouched (`ok = false`, covering RPC
errors, decode errors, reducer failures and a crash mid-batch). -/
def attemptRegistryBatch (ok : Bool) (chain_id : Nat) (tm : List (String × String))
    (tsOracle : Nat → Option String) (rcptOracle : String → Option TxReceipt)
    (rawLogs : List RawLog) (batch_end : Nat) (db : DB) : DB :=
  if ok then processRegistryBatch chain_id tm tsOracle rcptOracle rawLogs batch_end db else db

/-- One attempt at a WASM registry batch: `ok = false` covers an RPC or
decode failure or crash before the transaction commits; with
`ok = true` the transaction runs, and a raised exception inside it
(`processWasmBatch` returning `Except.error`, as every dispatched WASM
event does in the shipped tree) aborts it, leaving the store — cursor
included — untouched. -/
def attemptWasmBatch (ok : Bool) (chain_id : Nat) (tm : List (String × String))
    (tsOracle : Nat → Option String) (rawLogs : List RawLog) (batch_end : Nat) (db : DB) : DB :=
  if ok then
    match processWasmBatch chain_id tm tsOracle rawLogs batch_end db with
    | Except.ok db1 => db1
    | Except.error _ => db
  else db

/-- Python `range(a, b, step)` for a positive step. -/
def pyRange (a b step : Nat) : List Nat :=
  (List.range ((b - a + step - 1) / step)).map (fun i => a + i * step)

/-- The `batch_end` values visited by one `process_chain` sweep of a
registry whose cursor is `cursor`: `batch_start` ranges over
`range(cursor + 1, latest + 1, batch_size)` and
`batch_end = min(batch_start + batch_size - 1, latest)`. -/
def batchEnds (cursor latest batch_size : Nat) : List Nat :=
  (pyRange (cursor + 1) (latest + 1) batch_size).map (fun s => min (s + batch_size - 1) latest)

/-- Committing the first `k` batches of a sweep and then stopping
(`k` past the end commits them all): the cursor ends at the last
committed `batch_end`, or stays put when nothing committed.  A crash in
the middle of batch `k + 1` aborts its transaction, so the persisted
cursor is exactly the one after `k` commits. -/
def commitFirstBatches (cursor : Nat) (ends : List Nat) (k : Nat) : Nat :=
  match k, ends with
  | 0, _ => cursor
  | _, [] => cursor
  | k' + 1, e :: rest => commitFirstBatches e rest k'

/-- The two persisted cursors of one chain document. -/
structure SyncCursors where
  last_processed : Nat
  wasm_last_processed : Nat
  deriving Repr, DecidableEq

/-- One `ChainWorker.process_chain` iteration, viewed through the
persisted cursors: reload both cursors, compute
`latest_block = current_block - block_delay`, sweep the main registry
committing `kReg` batches before a crash or completion, then (when a
WASM registry is configured) sweep the WASM registry committing `kWasm`
batches.  Each committed batch persists its `batch_end` in the same
transaction as its effects; an uncommitted batch leaves its cursor
untouched. -/
def processChainCursors (batch_size block_delay : Nat) (wasmConfigured : Bool)
    (cur : SyncCursors) (current_block : Nat) (kReg kWasm : Nat) : SyncCursors :=
  let latest := current_block - block_delay
  let c1 := commitFirstBatches cur.last_processed
    (batchEnds cur.last_processed latest batch_size) kReg
  let c2 :=
    if wasmConfigured then
      commitFirstBatches cur.wasm_last_processed
        (batchEnds cur.wasm_last_processed latest batch_size) kWasm
    else cur.wasm_last_processed
  { last_processed := c1, wasm_last_processed := c2 }

/-- A sequence of worker iterations (each with its observed chain head
and its two crash points), chained through the persisted cursors —
exactly what survives a crash-and-restart. -/
def runCursorTrace (batch_size block_delay : Nat) (wasmConfigured : Bool)
    (cur : SyncCursors) : List (Nat × Nat × Nat) → SyncCursors
  | [] => cur
  | (current_block, kReg, kWasm) :: rest =>
    runCursorTrace batch_size block_delay wasmConfigured
      (processChainCursors batch_size block_delay wasmConfigured cur current_block kReg kWasm) rest

/-- Every state-mutating operation the system ever applies to the store:
the six reducers driven by the chain workers and the per-item filler
steps.  This is the alphabet over which the aggregate invariants are
stated. -/
inductive Op where
  | evCreated (e : PyEvent) (chain_id : Nat) (ts : String)
  | evRun (e : PyEvent) (chain_id : Nat) (ts : String) (rcpt : Option TxReceipt)
  | evRunWithMetadata (e : PyEvent) (chain_id : Nat) (ts : String) (rcpt : Option TxReceipt)
  | evCancelled (e : PyEvent) (chain_id : Nat) (ts : String)
  | evWasmCreated (e : PyEvent) (chain_id : Nat) (ts : String)
  | evWasmUpdated (e : PyEvent) (chain_id : Nat) (ts : String)
  | metaItem (wfDoc : Workflow) (fetched : Option Json) (now : Nat)
  | wasmItem (wasmDoc : WasmModule) (fetched : Option (List Nat)) (now : Nat)

/-- Dispatch of one operation, as its observable store effect: a WASM
reducer that raises makes its enclosing batch transaction abort, so the
store is left unchanged. -/
def applyOp (db : DB) : Op → DB
  | Op.evCreated e c ts => parse_created e c ts db
  | Op.evRun e c ts rcpt => parse_run e c ts db rcpt
  | Op.evRunWithMetadata e c ts rcpt => parse_run_with_metadata e c ts db rcpt
  | Op.evCancelled e c ts => parse_cancelled e c ts db
  | Op.evWasmCreated e c ts =>
    match parse_wasm_created e c ts db with
    | Except.ok db1 => db1
    | Except.error _ => db
  | Op.evWasmUpdated e c ts =>
    match parse_wasm_updated e c ts db with
    | Except.ok db1 => db1
    | Except.error _ => db
  | Op.metaItem wfDoc fetched now => metaFillerProcessItem db wfDoc fetched now
  | Op.wasmItem wasmDoc fetched now => wasmFillerProcessItem db wasmDoc fetched now

/-- A sequence of operations. -/
def applyOps (db : DB) (ops : List Op) : DB := ops.foldl applyOp db

/-- The per-workflow invariant of claim C2, as a decidable check:
whenever `chains_runs` is non-empty, `runs` equals the maximum across
its per-chain counters. -/
def runsInvB (w : Workflow) : Bool :=
  w.chains_runs.isEmpty || (w.runs == pyMax (w.chains_runs.map Prod.snd))

/-- The store-wide form of the invariant. -/
def dbRunsInv (db : DB) : Bool := db.workflows.all runsInvB

/-- The empty store. -/
def emptyDB : DB := {}

/-- Concrete decoded arguments for the closed instances below. -/
def sampleArgs (h : String) (n : Nat) : EventArgs := { ipfsHash := h, jobId := 5, nonce := n }

/-- A concrete decoded event. -/
def sampleEvent (h : String) (n : Nat) : PyEvent :=
  { args := sampleArgs h n, blockNumber := 3, transactionHash := "ab" }

/-- A freshly created workflow document for hash `h1`. -/
def sampleWorkflow : Workflow :=
  { ipfs_hash := "h1", create_event_id := 0, has_meta := false, runs := 0,
    chains_runs := [], is_cancelled := false }

/-- A store holding exactly that workflow. -/
def sampleDB : DB := { workflows := [sampleWorkflow] }

/-- The same workflow, already cancelled. -/
def cancelledWorkflow : Workflow := { sampleWorkflow with is_cancelled := true }

/-- A store holding the cancelled workflow. -/
def cancelledDB : DB := { workflows := [cancelledWorkflow] }

/-- A concrete WASM module document awaiting its code. -/
def sampleWasm : WasmModule :=
  { wasm_id := "w1", ipfs_hash := "Qm1", owner := "o", create_event_id := 0,
    chain_id := 1, has_wasm := false }

/-- A store holding exactly that module. -/
def wasmDB : DB := { wasm_modules := [sampleWasm] }

/-- A concrete decoded WasmUpdated event for that module. -/
def wasmEvent : PyEvent :=
  { args := { id := "w1", oldIpfsHash := "Qm1", newIpfsHash := "Qm2" },
    blockNumber := 4, transactionHash := "cd" }

/-- A metadata payload whose top level holds the store-incompatible key
`a.b`. -/
def badMetaJson : Json := Json.obj (JsonFields.cons "a.b" (Json.num 1) JsonFields.nil)

/-- A store holding one chain document with both cursors at 0. -/
def sampleChainDB : DB :=
  { chains := [{ global_chain_id := 1, last_processed_block := 0,
                 wasm_last_processed_block := 0, is_synced := false }] }

/-- A raw log whose topic-0 hash is recognized. -/
def sampleRawLog : RawLog :=
  { topic0 := "0xaaa", blockNumber := 5, transactionHash := "ef", argsOf := {} }

/-- A topic map recognizing exactly that hash as a Created event. -/
def sampleTopicMap : List (String × String) := [("0xaaa", "Created")]

/-- A concrete operation sequence: create the workflow for `h1`, then
observe runs for it on two chains with distinct nonces, then a
metadata-filler failure. -/
def sampleOps : List Op :=
  [Op.evCreated (sampleEvent "h1" 1) 1 "t1",
   Op.evRunWithMetadata (sampleEvent "h1" 1) 1 "t2" none,
   Op.evRunWithMetadata (sampleEvent "h1" 2) 2 "t3" none,
   Op.metaItem sampleWorkflow none 9]

theorem updateFirst_all {α : Type} (p : α → Bool) (f : α → α) (q : α → Bool)
    (hf : ∀ x, q x = true → q (f x) = true) :
    ∀ l : List α, l.all q = true → (updateFirst l p f).all q = true := by
  intro l
  induction l with
  | nil => intro h; exact h
  | cons x xs ih =>
    intro h
    rw [List.all_cons, Bool.and_eq_true] at h
    unfold updateFirst
    by_cases hp : p x = true
    · simp only [hp, if_true, List.all_cons, Bool.and_eq_true]
      exact ⟨hf x h.1, h.2⟩
    · simp only [Bool.not_eq_true] at hp
      simp only [hp, Bool.false_eq_true, if_false, List.all_cons, Bool.and_eq_true]
      exact ⟨h.1, ih h.2⟩

theorem find?_updateFirst {α : Type} (key : α → String) (f : α → α)
    (hf : ∀ x, key (f x) = key x) (h' h : String) :
    ∀ l : List α,
      (updateFirst l (fun x => key x == h') f).find? (fun x => key x == h) =
        if h' = h then (l.find? (fun x => key x == h)).map f
        else l.find? (fun x => key x == h) := by
  intro l
  induction l with
  | nil => simp [updateFirst]
  | cons x xs ih =>
    unfold updateFirst
    by_cases hx : key x = h'
    · simp only [hx, beq_self_eq_true, if_true]
      by_cases hh : h' = h
      · subst hh
        simp [List.find?_cons, hf x, hx]
      · have h1 : (key (f x) == h) = false := by
          rw [hf x, hx]; exact beq_eq_false_iff_ne.mpr hh
        have h2 : (key x == h) = false := by
          rw [hx]; exact beq_eq_false_iff_ne.mpr hh
        simp [List.find?_cons, h1, h2, hh]
    · have hxb : (key x == h') = false := beq_eq_false_iff_ne.mpr hx
      simp only [hxb, Bool.false_eq_true, if_false]
      by_cases hxh : key x = h
      · simp [List.find?_cons, hxh, beq_self_eq_true]
        by_cases hh : h' = h
        · exact absurd (hh ▸ hxh) hx
        · simp [hh]
      · have h2 : (key x == h) = false := beq_eq_false_iff_ne.mpr hxh
        simp only [List.find?_cons, h2]
        exact ih

theorem find?_append_some {α : Type} (p : α → Bool) (l l' : List α) (x : α)
    (hx : l.find? p = some x) : (l ++ l').find? p = some x := by
  rw [List.find?_append, hx]; rfl

theorem runUpdate_ipfs_hash (w : Workflow) (c : Nat) : (runUpdate w c).ipfs_hash = w.ipfs_hash := by
  unfold runUpdate
  cases metaWorkflowCount w.meta <;> dsimp only <;>
    split <;> (try split) <;> (try split) <;> rfl

theorem runUpdate_cancel_mono (w : Workflow) (c : Nat) (hc : w.is_cancelled = true) :
    (runUpdate w c).is_cancelled = true := by
  unfold runUpdate
  cases metaWorkflowCount w.meta <;> dsimp only <;>
    split <;> (try split) <;> (try split) <;> simp [hc]

theorem runUpdate_runsInvB (w : Workflow) (c : Nat) : runsInvB (runUpdate w c) = true := by
  unfold runUpdate
  cases metaWorkflowCount w.meta <;> dsimp only <;>
    split <;> (try split) <;> (try split) <;> simp_all [runsInvB]

theorem found_workflow_hash (db : DB) (h : String) (wf : Workflow)
    (hf : find_workflow_by_ipfs db h = some wf) : wf.ipfs_hash = h := by
  unfold find_workflow_by_ipfs at hf
  have hp := List.find?_some (p := fun w : Workflow => w.ipfs_hash == h) (a := wf) hf
  exact eq_of_beq hp

theorem found_wasm_id (db : DB) (i : String) (m : WasmModule)
    (hf : find_wasm_by_id db i = some m) : m.wasm_id = i := by
  unfold find_wasm_by_id at hf
  have hp := List.find?_some (p := fun x : WasmModule => x.wasm_id == i) (a := m) hf
  exact eq_of_beq hp

theorem parse_created_logs (e : PyEvent) (c : Nat) (t : String) (db : DB) :
    (parse_created e c t db).logs = db.logs ++
      [{ event := EventType.CREATED, chain_id := c, blocknumber := e.blockNumber,
         transaction_hash := "0x" ++ e.transactionHash, ipfs_hash := some e.args.ipfsHash,
         timestamp := t }] := by
  unfold parse_created insert_log
  dsimp only
  split <;> rfl

theorem parse_run_logs (e : PyEvent) (c : Nat) (t : String) (db : DB) (r : Option TxReceipt) :
    (parse_run e c t db r).logs = db.logs ++
      [{ event := EventType.RUN, chain_id := c, blocknumber := e.blockNumber,
         transaction_hash := "0x" ++ e.transactionHash, ipfs_hash := some e.args.ipfsHash,
         timestamp := t, tx_receipt := r.map receiptExcerpt }] := by
  unfold parse_run insert_log
  dsimp only
  split <;> rfl

theorem parse_run_with_metadata_logs (e : PyEvent) (c : Nat) (t : String) (db : DB)
    (r : Option TxReceipt) :
    (parse_run_with_metadata e c t db r).logs = db.logs ++
      [{ event := EventType.RUN, chain_id := c, blocknumber := e.blockNumber,
         transaction_hash := "0x" ++ e.transactionHash, ipfs_hash := some e.args.ipfsHash,
         job_id := some e.args.jobId, nonce := some e.args.nonce,
         timestamp := t, tx_receipt := r.map receiptExcerpt }] := by
  unfold parse_run_with_metadata insert_log
  dsimp only
  split <;> (try split) <;> rfl

theorem parse_cancelled_logs (e : PyEvent) (c : Nat) (t : String) (db : DB) :
    (parse_cancelled e c t db).logs = db.logs ++
      [{ event := EventType.CANCELLED, chain_id := c, blocknumber := e.blockNumber,
         transaction_hash := "0x" ++ e.transactionHash, ipfs_hash := some e.args.ipfsHash,
         timestamp := t }] := by
  unfold parse_cancelled insert_log
  dsimp only
  split <;> (try split) <;> rfl

theorem parse_wasm_created_raises (e : PyEvent) (c : Nat) (t : String) (db : DB) :
    parse_wasm_created e c t db = Except.error "AttributeError: WASM_CREATED" := rfl

theorem parse_wasm_updated_raises (e : PyEvent) (c : Nat) (t : String) (db : DB) :
    parse_wasm_updated e c t db = Except.error "AttributeError: WASM_UPDATED" := rfl

theorem find_workflow_logs_irrelevant (db : DB) (L : List LogEvent) (h : String) :
    find_workflow_by_ipfs { db with logs := L } h = find_workflow_by_ipfs db h := rfl

theorem find_wasm_logs_irrelevant (db : DB) (L : List LogEvent) (i : String) :
    find_wasm_by_id { db with logs := L } i = find_wasm_by_id db i := rfl

theorem find?_updateFirst_workflow (l : List Workflow) (f : Workflow → Workflow)
    (hf : ∀ x, (f x).ipfs_hash = x.ipfs_hash) (h' h : String) :
    (updateFirst l (fun w => w.ipfs_hash == h') f).find? (fun w => w.ipfs_hash == h) =
      if h' = h then (l.find? (fun w => w.ipfs_hash == h)).map f
      else l.find? (fun w => w.ipfs_hash == h) :=
  find?_updateFirst (fun x => x.ipfs_hash) f hf h' h l

theorem find?_updateFirst_wasm (l : List WasmModule) (f : WasmModule → WasmModule)
    (hf : ∀ x, (f x).wasm_id = x.wasm_id) (h' h : String) :
    (updateFirst l (fun m => m.wasm_id == h') f).find? (fun m => m.wasm_id == h) =
      if h' = h then (l.find? (fun m => m.wasm_id == h)).map f
      else l.find? (fun m => m.wasm_id == h) :=
  find?_updateFirst (fun x => x.wasm_id) f hf h' h l

/-- C8 (amended): every LogEvent a reducer actually writes stores the
`EventType` value used at its call site in `parsers.py`, and those are
exactly `Created`, `Run` and `Cancelled`: Created and Cancelled events
are logged with their namesake kinds, legacy Run events with `Run`, and
a decoded RunWithMetadata event is also logged with kind `Run` (the
same value legacy Run events use, which is exactly what the Run-kind
nonce-deduplication query relies on) — while the WasmCreated and
WasmUpdated reducers raise `AttributeError` reading their undeclared
`EventType` members and write no log at all. -/
theorem reducer_log_kinds (e : PyEvent) (c : Nat) (t : String) (db : DB)
    (r : Option TxReceipt) :
    (parse_created e c t db).logs.map LogEvent.event
        = db.logs.map LogEvent.event ++ [EventType.CREATED] ∧
    (parse_run e c t db r).logs.map LogEvent.event
        = db.logs.map LogEvent.event ++ [EventType.RUN] ∧
    (parse_run_with_metadata e c t db r).logs.map LogEvent.event
        = db.logs.map LogEvent.event ++ [EventType.RUN] ∧
    (parse_cancelled e c t db).logs.map LogEvent.event
        = db.logs.map LogEvent.event ++ [EventType.CANCELLED] ∧
    parse_wasm_created e c t db = Except.error "AttributeError: WASM_CREATED" ∧
    parse_wasm_updated e c t db = Except.error "AttributeError: WASM_UPDATED" := by
  refine ⟨?_, ?_, ?_, ?_, rfl, rfl⟩ <;>
    simp [parse_created_logs, parse_run_logs, parse_run_with_metadata_logs,
      parse_cancelled_logs]

/-- C8 (counterexample): on a concrete RunWithMetadata event against an
empty store, the single log record written by
`parse_run_with_metadata` carries the kind `Run`, which is not the kind
`RunWithMetadata` the claim requires. -/
theorem run_with_metadata_logged_as_run_cex :
    ((parse_run_with_metadata
        { args := { ipfsHash := "h1", jobId := 1, nonce := 1 }, blockNumber := 1,
          transactionHash := "ab" } 7 "t" {} none).logs.map LogEvent.event
      = [EventType.RUN]) ∧ EventType.RUN ≠ EventType.RUN_WITH_METADATA := by
  exact ⟨rfl, by decide⟩

/-- C5: re-delivering a Created event for an `ipfs_hash` that already
has a Workflow inserts exactly one LogEvent and leaves the workflows
collection (hence the existing document) entirely unchanged, while a
Created event for an unknown hash inserts one LogEvent and exactly one
Workflow with `runs = 0`, `is_cancelled = false`, `has_meta = false`,
empty per-chain counters and `create_event_id` referencing the log
entry just written. -/
theorem created_reducer_idempotent (e : PyEvent) (c : Nat) (t : String) (db : DB) :
    ((∃ wf, find_workflow_by_ipfs db e.args.ipfsHash = some wf) →
      (parse_created e c t db).workflows = db.workflows ∧
      (parse_created e c t db).logs.length = db.logs.length + 1) ∧
    (find_workflow_by_ipfs db e.args.ipfsHash = none →
      (parse_created e c t db).logs.length = db.logs.length + 1 ∧
      (parse_created e c t db).workflows = db.workflows ++
        [{ ipfs_hash := e.args.ipfsHash, create_event_id := db.logs.length,
           has_meta := false, runs := 0, chains_runs := [], is_cancelled := false }]) := by
  constructor
  · rintro ⟨wf, hw⟩
    refine ⟨?_, by simp [parse_created_logs]⟩
    unfold parse_created insert_log
    dsimp only
    rw [find_workflow_logs_irrelevant, hw]
  · intro hw
    refine ⟨by simp [parse_created_logs], ?_⟩
    unfold parse_created insert_log
    dsimp only
    rw [find_workflow_logs_irrelevant, hw]
    rfl

/-- C7 (code bug): the claim — and `parse_wasm_updated`'s own
docstring ("Update WASM entry with new IPFS hash and reference to
update event _id") — requires the log insert, the `update_history`
append and the `has_wasm` reset, but the shipped function reads
`EventType.WASM_UPDATED` while building its log document
(`parsers.py` line 249), a member `config.py`'s `EventType` does not
declare, so it raises `AttributeError` before any effect: on the
concrete WasmUpdated event for module `w1` it inserts no log, appends
nothing to `update_history`, and the enclosing transaction aborts
leaving the store unchanged. -/
theorem wasm_updated_attribute_error :
    eventTypeAttr "WASM_UPDATED" = Except.error "AttributeError: WASM_UPDATED" ∧
    parse_wasm_updated wasmEvent 1 "t" wasmDB = Except.error "AttributeError: WASM_UPDATED" ∧
    applyOp wasmDB (Op.evWasmUpdated wasmEvent 1 "t") = wasmDB ∧
    (find_wasm_by_id wasmDB wasmEvent.args.id).map WasmModule.update_history = some [] :=
  ⟨rfl, rfl, rfl, rfl⟩

/-- C5 (witness): on a store already holding the workflow for `h1`, a
duplicate Created event leaves the workflows collection unchanged; on
the empty store it adds exactly one log entry. -/
theorem created_reducer_idempotent_witness :
    (parse_created (sampleEvent "h1" 1) 1 "t" sampleDB).workflows = sampleDB.workflows ∧
    (parse_created (sampleEvent "h1" 1) 1 "t" emptyDB).logs.length = emptyDB.logs.length + 1 :=
  ⟨((created_reducer_idempotent (sampleEvent "h1" 1) 1 "t" sampleDB).1 ⟨sampleWorkflow, rfl⟩).1,
   ((created_reducer_idempotent (sampleEvent "h1" 1) 1 "t" emptyDB).2 rfl).1⟩

theorem has_run_event_append (db : DB) (l : LogEvent) (h : String) (n : Nat) :
    has_run_event_with_nonce { db with logs := db.logs ++ [l] } h n =
      (has_run_event_with_nonce db h n ||
        (l.ipfs_hash == some h && l.nonce == some n && l.event == "Run")) := by
  unfold has_run_event_with_nonce
  simp [List.any_append]

theorem parse_rwm_workflows_fresh (e : PyEvent) (c : Nat) (t : String) (db : DB)
    (r : Option TxReceipt) (wf : Workflow)
    (hw : find_workflow_by_ipfs db e.args.ipfsHash = some wf)
    (hfresh : has_run_event_with_nonce db e.args.ipfsHash e.args.nonce = false) :
    (parse_run_with_metadata e c t db r).workflows =
      updateFirst db.workflows (fun w => w.ipfs_hash == e.args.ipfsHash)
        (fun w => runUpdate w c) := by
  unfold parse_run_with_metadata insert_log
  dsimp only
  rw [hw]
  dsimp only
  rw [hfresh]
  simp only [Bool.false_eq_true, if_false]
  unfold update_workflow
  dsimp only
  rw [found_workflow_hash db e.args.ipfsHash wf hw]

theorem parse_rwm_workflows_dup (e : PyEvent) (c : Nat) (t : String) (db : DB)
    (r : Option TxReceipt) (wf : Workflow)
    (hw : find_workflow_by_ipfs db e.args.ipfsHash = some wf)
    (hdup : has_run_event_with_nonce db e.args.ipfsHash e.args.nonce = true) :
    (parse_run_with_metadata e c t db r).workflows = db.workflows := by
  unfold parse_run_with_metadata insert_log
  dsimp only
  rw [hw]
  dsimp only
  rw [hdup]
  rfl

/-- C1: two RunWithMetadata events that agree on `(ipfs_hash, nonce)`
(whatever chain each arrives on), applied to a store whose workflow for
that hash exists and which holds no Run-kind log with that nonce yet,
insert two LogEvent records in total; the first application performs the
run-counting update, and the second — finding the first's Run-kind log
with the same `(ipfs_hash, nonce)` — leaves the workflows collection
(hence `runs` and `chains_runs`) exactly as the first left it. -/
theorem run_with_metadata_nonce_dedup (db : DB) (e1 e2 : PyEvent) (c1 c2 : Nat)
    (t1 t2 : String) (r1 r2 : Option TxReceipt) (wf : Workflow)
    (hw : find_workflow_by_ipfs db e1.args.ipfsHash = some wf)
    (hh : e2.args.ipfsHash = e1.args.ipfsHash) (hn : e2.args.nonce = e1.args.nonce)
    (hfresh : has_run_event_with_nonce db e1.args.ipfsHash e1.args.nonce = false) :
    (parse_run_with_metadata e2 c2 t2 (parse_run_with_metadata e1 c1 t1 db r1) r2).logs.length
        = db.logs.length + 2 ∧
    (parse_run_with_metadata e1 c1 t1 db r1).workflows =
      updateFirst db.workflows (fun w => w.ipfs_hash == e1.args.ipfsHash)
        (fun w => runUpdate w c1) ∧
    (parse_run_with_metadata e2 c2 t2 (parse_run_with_metadata e1 c1 t1 db r1) r2).workflows =
      (parse_run_with_metadata e1 c1 t1 db r1).workflows := by
  have hlogs1 := parse_run_with_metadata_logs e1 c1 t1 db r1
  have hwfs1 := parse_rwm_workflows_fresh e1 c1 t1 db r1 wf hw hfresh
  have hf2 : find_workflow_by_ipfs (parse_run_with_metadata e1 c1 t1 db r1) e2.args.ipfsHash
      = some (runUpdate wf c1) := by
    unfold find_workflow_by_ipfs
    rw [hwfs1, hh]
    rw [find?_updateFirst_workflow db.workflows _ (fun x => runUpdate_ipfs_hash x c1)
      e1.args.ipfsHash e1.args.ipfsHash]
    rw [if_pos rfl]
    unfold find_workflow_by_ipfs at hw
    rw [hw]
    rfl
  have hdup2 : has_run_event_with_nonce (parse_run_with_metadata e1 c1 t1 db r1)
      e2.args.ipfsHash e2.args.nonce = true := by
    unfold has_run_event_with_nonce
    rw [hlogs1, hh, hn]
    rw [List.any_append]
    simp [EventType.RUN]
  refine ⟨?_, hwfs1, ?_⟩
  · rw [parse_run_with_metadata_logs e2 c2 t2 _ r2, hlogs1]
    simp
  · exact parse_rwm_workflows_dup e2 c2 t2 _ r2 (runUpdate wf c1) hf2 hdup2

/-- C1 (witness): the concrete pair of RunWithMetadata events for hash
`h1`, nonce 1, arriving on chains 1 and 2, against the store holding the
fresh workflow for `h1`. -/
theorem run_with_metadata_nonce_dedup_witness :
    (parse_run_with_metadata (sampleEvent "h1" 1) 2 "t2"
        (parse_run_with_metadata (sampleEvent "h1" 1) 1 "t1" sampleDB none) none).logs.length
      = sampleDB.logs.length + 2 ∧
    (parse_run_with_metadata (sampleEvent "h1" 1) 1 "t1" sampleDB none).workflows =
      updateFirst sampleDB.workflows
        (fun w => w.ipfs_hash == (sampleEvent "h1" 1).args.ipfsHash)
        (fun w => runUpdate w 1) ∧
    (parse_run_with_metadata (sampleEvent "h1" 1) 2 "t2"
        (parse_run_with_metadata (sampleEvent "h1" 1) 1 "t1" sampleDB none) none).workflows =
      (parse_run_with_metadata (sampleEvent "h1" 1) 1 "t1" sampleDB none).workflows :=
  run_with_metadata_nonce_dedup sampleDB (sampleEvent "h1" 1) (sampleEvent "h1" 1) 1 2
    "t1" "t2" none none sampleWorkflow rfl rfl rfl rfl

mutual

theorem hasBadKey_found : ∀ (j : Json) (path : List String),
    hasBadKey j = true → (has_invalid_mongo_keys j path).isSome = true
  | Json.null, _, h => by simp [hasBadKey] at h
  | Json.bool b, _, h => by simp [hasBadKey] at h
  | Json.num n, _, h => by simp [hasBadKey] at h
  | Json.str s, _, h => by simp [hasBadKey] at h
  | Json.arr xs, path, h =>
    hasBadKeyList_found xs 0 path (by simpa [hasBadKey] using h)
  | Json.obj fs, path, h =>
    hasBadKeyFields_found fs path (by simpa [hasBadKey] using h)

theorem hasBadKeyFields_found : ∀ (fs : JsonFields) (path : List String),
    hasBadKeyFields fs = true → (hasInvalidKeysFields fs path).isSome = true
  | JsonFields.nil, _, h => by simp [hasBadKeyFields] at h
  | JsonFields.cons k v tl, path, h => by
    unfold hasInvalidKeysFields
    by_cases hk : isInvalidMongoKey k = true
    · simp [hk]
    · simp only [Bool.not_eq_true] at hk
      unfold hasBadKeyFields at h
      rw [hk] at h
      simp only [Bool.false_or, Bool.or_eq_true] at h
      rcases h with hv | htl
      · have hres' := hasBadKey_found v (path ++ [k]) hv
        rcases hres : has_invalid_mongo_keys v (path ++ [k]) with _ | r
        · rw [hres] at hres'; simp at hres'
        · simp [hk, hres]
      · have htl' := hasBadKeyFields_found tl path htl
        rcases hres : has_invalid_mongo_keys v (path ++ [k]) with _ | r
        · simp [hk, hres, htl']
        · simp [hk, hres]

theorem hasBadKeyList_found : ∀ (xs : JsonList) (idx : Nat) (path : List String),
    hasBadKeyList xs = true → (hasInvalidKeysList xs idx path).isSome = true
  | JsonList.nil, _, _, h => by simp [hasBadKeyList] at h
  | JsonList.cons x rest, idx, path, h => by
    unfold hasInvalidKeysList
    unfold hasBadKeyList at h
    simp only [Bool.or_eq_true] at h
    rcases hres : has_invalid_mongo_keys x (path ++ [toString idx]) with _ | r
    · rcases h with hx | hrest
      · have hx' := hasBadKey_found x (path ++ [toString idx]) hx
        rw [hres] at hx'; simp at hx'
      · simpa [hres] using hasBadKeyList_found rest (idx + 1) path hrest
    · simp [hres]

end

/-- C9: when the payload fetched for a metadata-pending workflow
contains, anywhere in its dict/list structure, a key with a `'.'` or a
leading `'$'`, the filler's per-item step reduces (without raising) to
recording a failure: the workflow keeps its `meta`, `has_meta`,
`is_cancelled` and counters, gains the failure timestamp and an
incremented failure counter, and the rest of the batch is still
processed. -/
theorem meta_filler_rejects_invalid_keys (db : DB) (wfDoc : Workflow) (m : Json)
    (now : Nat) (rest : List (Workflow × Option Json)) (wf : Workflow)
    (hfind : find_workflow_by_ipfs db wfDoc.ipfs_hash = some wf)
    (hbad : hasBadKey m = true) :
    metaFillerProcessItem db wfDoc (some m) now =
      mark_workflow_meta_failure db wfDoc.ipfs_hash now ∧
    (∃ wf', find_workflow_by_ipfs (metaFillerProcessItem db wfDoc (some m) now) wfDoc.ipfs_hash
        = some wf' ∧
      wf'.meta = wf.meta ∧ wf'.has_meta = wf.has_meta ∧ wf'.is_cancelled = wf.is_cancelled ∧
      wf'.runs = wf.runs ∧ wf'.chains_runs = wf.chains_runs ∧
      wf'.meta_fetch_last_failed = some now ∧
      wf'.meta_fetch_failure_count = some (wf.meta_fetch_failure_count.getD 0 + 1)) ∧
    metaFillerBatch db ((wfDoc, some m) :: rest) now =
      metaFillerBatch (metaFillerProcessItem db wfDoc (some m) now) rest now := by
  have hsome := hasBadKey_found m [] hbad
  have heq : metaFillerProcessItem db wfDoc (some m) now =
      mark_workflow_meta_failure db wfDoc.ipfs_hash now := by
    unfold metaFillerProcessItem
    dsimp only
    rcases hres : has_invalid_mongo_keys m [] with _ | r
    · rw [hres] at hsome; simp at hsome
    · rfl
  refine ⟨heq, ?_, rfl⟩
  rw [heq]
  unfold mark_workflow_meta_failure update_workflow find_workflow_by_ipfs
  dsimp only
  rw [find?_updateFirst_workflow db.workflows]
  · rw [if_pos rfl]
    unfold find_workflow_by_ipfs at hfind
    rw [hfind]
    exact ⟨_, rfl, rfl, rfl, rfl, rfl, rfl, rfl, rfl⟩
  · exact fun x => rfl

/-- C9 (witness): the payload `{"a.b": 1}` against the store holding the
workflow for `h1`. -/
theorem meta_filler_rejects_invalid_keys_witness :
    metaFillerProcessItem sampleDB sampleWorkflow (some badMetaJson) 0 =
      mark_workflow_meta_failure sampleDB sampleWorkflow.ipfs_hash 0 :=
  (meta_filler_rejects_invalid_keys sampleDB sampleWorkflow badMetaJson 0 []
    sampleWorkflow rfl rfl).1

/-- C10: when the payload fetched for a code-pending WASM module is
shorter than 4 bytes or does not start with the `\x00asm` magic header,
the filler's per-item step reduces to recording a failure: the module
keeps its `has_wasm`, `wasm_code` and `wasm_code_size`, gains the
failure timestamp and an incremented failure counter, and the rest of
the batch is still processed. -/
theorem wasm_filler_rejects_bad_magic (db : DB) (wasmDoc : WasmModule) (code : List Nat)
    (now : Nat) (rest : List (WasmModule × Option (List Nat))) (m : WasmModule)
    (hfind : find_wasm_by_id db wasmDoc.wasm_id = some m)
    (hbad : code.length < 4 ∨ code.take 4 ≠ wasmMagic) :
    wasmFillerProcessItem db wasmDoc (some code) now =
      mark_wasm_fetch_failure db wasmDoc.wasm_id now ∧
    (∃ m', find_wasm_by_id (wasmFillerProcessItem db wasmDoc (some code) now) wasmDoc.wasm_id
        = some m' ∧
      m'.has_wasm = m.has_wasm ∧ m'.wasm_code = m.wasm_code ∧
      m'.wasm_code_size = m.wasm_code_size ∧
      m'.wasm_fetch_last_failed = some now ∧
      m'.wasm_fetch_failure_count = some (m.wasm_fetch_failure_count.getD 0 + 1)) ∧
    wasmFillerBatch db ((wasmDoc, some code) :: rest) now =
      wasmFillerBatch (wasmFillerProcessItem db wasmDoc (some code) now) rest now := by
  have heq : wasmFillerProcessItem db wasmDoc (some code) now =
      mark_wasm_fetch_failure db wasmDoc.wasm_id now := by
    unfold wasmFillerProcessItem
    dsimp only
    rw [if_pos hbad]
  refine ⟨heq, ?_, rfl⟩
  rw [heq]
  unfold mark_wasm_fetch_failure update_wasm find_wasm_by_id
  dsimp only
  rw [find?_updateFirst_wasm db.wasm_modules]
  · rw [if_pos rfl]
    unfold find_wasm_by_id at hfind
    rw [hfind]
    exact ⟨_, rfl, rfl, rfl, rfl, rfl, rfl⟩
  · exact fun x => rfl

/-- C10 (witness): the three-byte payload `[1, 2, 3]` against the store
holding module `w1`. -/
theorem wasm_filler_rejects_bad_magic_witness :
    wasmFillerProcessItem wasmDB sampleWasm (some [1, 2, 3]) 0 =
      mark_wasm_fetch_failure wasmDB sampleWasm.wasm_id 0 :=
  (wasm_filler_rejects_bad_magic wasmDB sampleWasm [1, 2, 3] 0 [] sampleWasm rfl
    (by decide)).1

theorem dbRunsInv_update (db : DB) (h : String) (f : Workflow → Workflow)
    (hf : ∀ w, runsInvB w = true → runsInvB (f w) = true)
    (hd : dbRunsInv db = true) : dbRunsInv (update_workflow db h f) = true := by
  unfold dbRunsInv update_workflow at *
  exact updateFirst_all _ f runsInvB hf db.workflows hd

theorem applyOp_dbRunsInv (db : DB) (op : Op) (hd : dbRunsInv db = true) :
    dbRunsInv (applyOp db op) = true := by
  cases op with
  | evCreated e c ts =>
    unfold applyOp parse_created insert_log
    dsimp only
    split
    · exact hd
    · unfold dbRunsInv insert_workflow at *
      dsimp only
      rw [List.all_append]
      simp [hd, runsInvB]
  | evRun e c ts rcpt =>
    unfold applyOp parse_run insert_log
    dsimp only
    split
    · next wfx hfx =>
      exact dbRunsInv_update db wfx.ipfs_hash _ (fun w _ => runUpdate_runsInvB w c) hd
    · exact hd
  | evRunWithMetadata e c ts rcpt =>
    unfold applyOp parse_run_with_metadata insert_log
    dsimp only
    split
    · next wfx hfx =>
      split
      · exact hd
      · exact dbRunsInv_update db wfx.ipfs_hash _ (fun w _ => runUpdate_runsInvB w c) hd
    · exact hd
  | evCancelled e c ts =>
    unfold applyOp parse_cancelled insert_log
    dsimp only
    split
    · exact hd
    · split
      · exact hd
      · exact dbRunsInv_update { db with logs := db.logs ++ [_] } _ _ (fun w hw => hw) hd
  | evWasmCreated e c ts =>
    exact hd
  | evWasmUpdated e c ts =>
    exact hd
  | metaItem wfDoc fetched now =>
    unfold applyOp metaFillerProcessItem
    dsimp only
    match fetched with
    | none =>
      exact dbRunsInv_update db wfDoc.ipfs_hash _ (fun w hw => hw) hd
    | some meta =>
      dsimp only
      split
      · exact dbRunsInv_update db wfDoc.ipfs_hash _ (fun w hw => hw) hd
      · refine dbRunsInv_update _ wfDoc.ipfs_hash _ (fun w hw => hw) ?_
        refine dbRunsInv_update db wfDoc.ipfs_hash _ (fun w hw => ?_) hd
        dsimp only
        split <;> exact hw
  | wasmItem wasmDoc fetched now =>
    unfold applyOp wasmFillerProcessItem
    dsimp only
    match fetched with
    | none => exact hd
    | some code =>
      dsimp only
      split
      · exact hd
      · exact hd

theorem applyOps_dbRunsInv : ∀ (ops : List Op) (db : DB),
    dbRunsInv db = true → dbRunsInv (applyOps db ops) = true
  | [], _, hd => hd
  | op :: rest, db, hd => applyOps_dbRunsInv rest (applyOp db op) (applyOp_dbRunsInv db op hd)

/-- C2: starting from any store whose workflows all satisfy the
run-counter invariant (the empty store in particular), after any
sequence of Created/Run/RunWithMetadata/Cancelled/WasmCreated/
WasmUpdated reducer applications and filler-worker item steps, every
workflow document with a non-empty `chains_runs` mapping has
`runs = max(chains_runs.values())` — the maximum across per-chain
counters, never their sum. -/
theorem runs_eq_max_of_chains_runs (db : DB) (ops : List Op) (hd : dbRunsInv db = true) :
    dbRunsInv (applyOps db ops) = true ∧
    ∀ w ∈ (applyOps db ops).workflows, w.chains_runs ≠ [] →
      w.runs = pyMax (w.chains_runs.map Prod.snd) := by
  have h1 := applyOps_dbRunsInv ops db hd
  refine ⟨h1, ?_⟩
  intro w hw hne
  have hall := List.all_eq_true.mp h1 w hw
  unfold runsInvB at hall
  rw [Bool.or_eq_true] at hall
  rcases hall with hemp | heq
  · exact absurd (List.isEmpty_iff.mp hemp) hne
  · exact eq_of_beq heq

/-- C2 (witness): the invariant holds concretely after creating the
workflow for `h1` and running it on chains 1 and 2. -/
theorem runs_eq_max_of_chains_runs_witness :
    dbRunsInv (applyOps emptyDB sampleOps) = true :=
  (runs_eq_max_of_chains_runs emptyDB sampleOps rfl).1

theorem find_cancel_update (db : DB) (h' h : String) (f : Workflow → Workflow)
    (hfh : ∀ x, (f x).ipfs_hash = x.ipfs_hash)
    (hfc : ∀ x, x.is_cancelled = true → (f x).is_cancelled = true)
    (wf : Workflow) (hf : find_workflow_by_ipfs db h = some wf) (hc : wf.is_cancelled = true) :
    ∃ wf', find_workflow_by_ipfs (update_workflow db h' f) h = some wf' ∧
      wf'.is_cancelled = true := by
  unfold find_workflow_by_ipfs update_workflow at *
  dsimp only
  rw [find?_updateFirst_workflow db.workflows f hfh h' h]
  by_cases hh : h' = h
  · rw [if_pos hh, hf]
    exact ⟨f wf, rfl, hfc wf hc⟩
  · rw [if_neg hh]
    exact ⟨wf, hf, hc⟩

theorem find_cancel_update2 (db : DB) (h1' h2' h : String) (f g : Workflow → Workflow)
    (hfh : ∀ x, (f x).ipfs_hash = x.ipfs_hash)
    (hfc : ∀ x, x.is_cancelled = true → (f x).is_cancelled = true)
    (hgh : ∀ x, (g x).ipfs_hash = x.ipfs_hash)
    (hgc : ∀ x, x.is_cancelled = true → (g x).is_cancelled = true)
    (wf : Workflow) (hf : find_workflow_by_ipfs db h = some wf) (hc : wf.is_cancelled = true) :
    ∃ wf', find_workflow_by_ipfs (update_workflow (update_workflow db h1' f) h2' g) h = some wf' ∧
      wf'.is_cancelled = true := by
  obtain ⟨wf1, h1, hc1⟩ := find_cancel_update db h1' h f hfh hfc wf hf hc
  exact find_cancel_update _ h2' h g hgh hgc wf1 h1 hc1

theorem find_cancel_insert (db : DB) (w : Workflow) (h : String) (wf : Workflow)
    (hf : find_workflow_by_ipfs db h = some wf) (hc : wf.is_cancelled = true) :
    ∃ wf', find_workflow_by_ipfs (insert_workflow db w) h = some wf' ∧
      wf'.is_cancelled = true := by
  unfold find_workflow_by_ipfs insert_workflow at *
  exact ⟨wf, find?_append_some _ db.workflows [w] wf hf, hc⟩

theorem applyOp_cancel_mono (db : DB) (op : Op) (h : String) (wf : Workflow)
    (hf : find_workflow_by_ipfs db h = some wf) (hc : wf.is_cancelled = true) :
    ∃ wf', find_workflow_by_ipfs (applyOp db op) h = some wf' ∧
      wf'.is_cancelled = true := by
  cases op with
  | evCreated e c ts =>
    unfold applyOp parse_created insert_log
    dsimp only
    split
    · exact ⟨wf, hf, hc⟩
    · exact find_cancel_insert { db with logs := db.logs ++ [_] } _ h wf hf hc
  | evRun e c ts rcpt =>
    unfold applyOp parse_run insert_log
    dsimp only
    split
    · next wfx hfx =>
      exact find_cancel_update db wfx.ipfs_hash h _ (fun x => runUpdate_ipfs_hash x c)
        (fun x hx => runUpdate_cancel_mono x c hx) wf hf hc
    · exact ⟨wf, hf, hc⟩
  | evRunWithMetadata e c ts rcpt =>
    unfold applyOp parse_run_with_metadata insert_log
    dsimp only
    split
    · next wfx hfx =>
      split
      · exact ⟨wf, hf, hc⟩
      · exact find_cancel_update db wfx.ipfs_hash h _ (fun x => runUpdate_ipfs_hash x c)
          (fun x hx => runUpdate_cancel_mono x c hx) wf hf hc
    · exact ⟨wf, hf, hc⟩
  | evCancelled e c ts =>
    unfold applyOp parse_cancelled insert_log
    dsimp only
    split
    · exact ⟨wf, hf, hc⟩
    · split
      · exact ⟨wf, hf, hc⟩
      · next wfx hfx hnc =>
        exact find_cancel_update { db with logs := db.logs ++ [_] } wfx.ipfs_hash h _
          (fun x => rfl) (fun x _ => rfl) wf hf hc
  | evWasmCreated e c ts =>
    exact ⟨wf, hf, hc⟩
  | evWasmUpdated e c ts =>
    exact ⟨wf, hf, hc⟩
  | metaItem wfDoc fetched now =>
    unfold applyOp metaFillerProcessItem
    dsimp only
    match fetched with
    | none =>
      exact find_cancel_update db wfDoc.ipfs_hash h _ (fun x => rfl) (fun x hx => hx) wf hf hc
    | some meta =>
      dsimp only
      split
      · exact find_cancel_update db wfDoc.ipfs_hash h _ (fun x => rfl) (fun x hx => hx) wf hf hc
      · refine find_cancel_update2 db wfDoc.ipfs_hash wfDoc.ipfs_hash h _ _ ?_ ?_ ?_ ?_
          wf hf hc
        · intro x
          dsimp only
          split <;> rfl
        · intro x hx
          dsimp only
          split <;> simp [hx]
        · intro x
          rfl
        · intro x hx
          exact hx
  | wasmItem wasmDoc fetched now =>
    unfold applyOp wasmFillerProcessItem
    dsimp only
    match fetched with
    | none => exact ⟨wf, hf, hc⟩
    | some code =>
      dsimp only
      split
      · exact ⟨wf, hf, hc⟩
      · exact ⟨wf, hf, hc⟩

theorem applyOps_cancel_mono : ∀ (ops : List Op) (db : DB) (h : String) (wf : Workflow),
    find_workflow_by_ipfs db h = some wf → wf.is_cancelled = true →
    ∃ wf', find_workflow_by_ipfs (applyOps db ops) h = some wf' ∧ wf'.is_cancelled = true
  | [], _, _, wf, hf, hc => ⟨wf, hf, hc⟩
  | op :: rest, db, h, wf, hf, hc => by
    obtain ⟨wf1, h1, hc1⟩ := applyOp_cancel_mono db op h wf hf hc
    exact applyOps_cancel_mono rest (applyOp db op) h wf1 h1 hc1

/-- C6: once a workflow's `is_cancelled` is true, it stays true under
any subsequent sequence of Created/Run/RunWithMetadata/Cancelled/
WasmCreated/WasmUpdated reducer applications and filler-worker item
steps: no operation ever writes `is_cancelled = false` to an existing
workflow, and none removes it. -/
theorem is_cancelled_monotone (db : DB) (ops : List Op) (h : String) (wf : Workflow)
    (hf : find_workflow_by_ipfs db h = some wf) (hc : wf.is_cancelled = true) :
    ∃ wf', find_workflow_by_ipfs (applyOps db ops) h = some wf' ∧
      wf'.is_cancelled = true :=
  applyOps_cancel_mono ops db h wf hf hc

/-- C6 (witness): the cancelled workflow for `h1` stays cancelled across
the concrete operation sequence. -/
theorem is_cancelled_monotone_witness :
    ∃ wf', find_workflow_by_ipfs (applyOps cancelledDB sampleOps) "h1" = some wf' ∧
      wf'.is_cancelled = true :=
  is_cancelled_monotone cancelledDB sampleOps "h1" cancelledWorkflow rfl rfl

theorem pyRange_mem_ge {a b step x : Nat} (hx : x ∈ pyRange a b step) : a ≤ x := by
  unfold pyRange at hx
  rw [List.mem_map] at hx
  obtain ⟨i, _, rfl⟩ := hx
  exact Nat.le_add_right a (i * step)

theorem pyRange_mem_lt {a b step x : Nat} (hstep : 0 < step) (hx : x ∈ pyRange a b step) :
    x < b := by
  unfold pyRange at hx
  rw [List.mem_map] at hx
  obtain ⟨i, hi, rfl⟩ := hx
  rw [List.mem_range] at hi
  have h1 : i + 1 ≤ (b - a + step - 1) / step := hi
  have h2 : (i + 1) * step ≤ b - a + step - 1 := (Nat.le_div_iff_mul_le hstep).mp h1
  have h3 : (i + 1) * step = i * step + step := by ring
  omega

theorem pyRange_pairwise (a b step : Nat) : (pyRange a b step).Pairwise (· ≤ ·) := by
  unfold pyRange
  refine List.Pairwise.map _ ?_ (List.pairwise_lt_range _)
  intro i j hij
  exact Nat.add_le_add_left (Nat.mul_le_mul_right step (Nat.le_of_lt hij)) a

theorem batchEnds_ge {cursor latest bs e : Nat} (hbs : 0 < bs)
    (he : e ∈ batchEnds cursor latest bs) : cursor < e := by
  unfold batchEnds at he
  rw [List.mem_map] at he
  obtain ⟨s, hs, rfl⟩ := he
  have h1 : cursor + 1 ≤ s := pyRange_mem_ge hs
  have h2 : s < latest + 1 := pyRange_mem_lt hbs hs
  omega

theorem batchEnds_pairwise (cursor latest bs : Nat) :
    (batchEnds cursor latest bs).Pairwise (· ≤ ·) := by
  unfold batchEnds
  refine List.Pairwise.map _ ?_ (pyRange_pairwise _ _ _)
  intro a b hab
  exact min_le_min (by omega) (le_refl latest)

theorem commitFirstBatches_ge : ∀ (ends : List Nat) (cursor k : Nat),
    ends.Pairwise (· ≤ ·) → (∀ e ∈ ends, cursor ≤ e) →
    cursor ≤ commitFirstBatches cursor ends k
  | [], cursor, k, _, _ => by cases k <;> exact le_refl cursor
  | _ :: _, cursor, 0, _, _ => le_refl cursor
  | e :: rest, cursor, k + 1, hp, hge => by
    have h1 : cursor ≤ e := hge e (List.mem_cons_self e rest)
    have hp' := List.pairwise_cons.mp hp
    have h2 := commitFirstBatches_ge rest e k hp'.2 hp'.1
    unfold commitFirstBatches
    exact le_trans h1 h2

theorem processChainCursors_mono (bs delay : Nat) (wcfg : Bool) (cur : SyncCursors)
    (cb kR kW : Nat) (hbs : 0 < bs) :
    cur.last_processed ≤ (processChainCursors bs delay wcfg cur cb kR kW).last_processed ∧
    cur.wasm_last_processed ≤
      (processChainCursors bs delay wcfg cur cb kR kW).wasm_last_processed := by
  unfold processChainCursors
  dsimp only
  constructor
  · exact commitFirstBatches_ge _ _ _ (batchEnds_pairwise _ _ _)
      (fun e he => le_of_lt (batchEnds_ge hbs he))
  · cases wcfg with
    | false => simp
    | true =>
      simp only [if_true]
      exact commitFirstBatches_ge _ _ _ (batchEnds_pairwise _ _ _)
        (fun e he => le_of_lt (batchEnds_ge hbs he))

theorem runCursorTrace_mono (bs delay : Nat) (wcfg : Bool) (hbs : 0 < bs) :
    ∀ (iters : List (Nat × Nat × Nat)) (cur : SyncCursors),
    cur.last_processed ≤ (runCursorTrace bs delay wcfg cur iters).last_processed ∧
    cur.wasm_last_processed ≤ (runCursorTrace bs delay wcfg cur iters).wasm_last_processed
  | [], cur => ⟨le_refl _, le_refl _⟩
  | (cb, kR, kW) :: rest, cur => by
    obtain ⟨h1, h2⟩ := processChainCursors_mono bs delay wcfg cur cb kR kW hbs
    obtain ⟨h3, h4⟩ := runCursorTrace_mono bs delay wcfg hbs rest
      (processChainCursors bs delay wcfg cur cb kR kW)
    unfold runCursorTrace
    exact ⟨le_trans h1 h3, le_trans h2 h4⟩

/-- C3: across any sequence of worker iterations — each with its own
observed chain head and its own crash points truncating either
registry's sweep mid-batch — the persisted `last_processed_block` and
(when a WASM registry is configured) `wasm_last_processed_block` are
monotonically non-decreasing; and at the store level an aborted batch
transaction changes nothing at all, a committed registry batch applies
all its reducer effects and persists the cursor to `batch_end` in that
same atomic step, and a WASM batch whose transaction completes cleanly
does the same while one in which an event dispatch raises (as every
dispatched WASM event does in the shipped tree) aborts, leaving even
the cursor untouched — so a cursor never moves past a batch whose
effects were not committed. -/
theorem chain_cursors_monotone (bs delay : Nat) (wcfg : Bool) (cur : SyncCursors)
    (iters : List (Nat × Nat × Nat)) (hbs : 0 < bs) :
    (cur.last_processed ≤ (runCursorTrace bs delay wcfg cur iters).last_processed ∧
     cur.wasm_last_processed ≤ (runCursorTrace bs delay wcfg cur iters).wasm_last_processed) ∧
    (∀ (chain_id : Nat) (tm : List (String × String)) (ts : Nat → Option String)
       (rc : String → Option TxReceipt) (raws : List RawLog) (be : Nat) (db : DB),
      attemptRegistryBatch false chain_id tm ts rc raws be db = db) ∧
    (∀ (chain_id : Nat) (tm : List (String × String)) (ts : Nat → Option String)
       (raws : List RawLog) (be : Nat) (db : DB),
      attemptWasmBatch false chain_id tm ts raws be db = db) ∧
    (∀ (chain_id : Nat) (tm : List (String × String)) (ts : Nat → Option String)
       (rc : String → Option TxReceipt) (raws : List RawLog) (be : Nat) (db : DB),
      attemptRegistryBatch true chain_id tm ts rc raws be db =
        update_chain_last_processed
          ((collectDecodedEvents tm ts rc raws).foldl (applyRegistryEvent chain_id) db)
          chain_id be) ∧
    (∀ (chain_id : Nat) (tm : List (String × String)) (ts : Nat → Option String)
       (raws : List RawLog) (be : Nat) (db db1 : DB),
      processWasmBatch chain_id tm ts raws be db = Except.ok db1 →
        attemptWasmBatch true chain_id tm ts raws be db = db1 ∧
        ∃ db0, (collectDecodedEvents tm ts (fun _ => none) raws).foldl
            (applyWasmEvent chain_id) (Except.ok db) = Except.ok db0 ∧
          db1 = update_chain_wasm_last_processed db0 chain_id be) ∧
    (∀ (chain_id : Nat) (tm : List (String × String)) (ts : Nat → Option String)
       (raws : List RawLog) (be : Nat) (db : DB) (msg : String),
      (collectDecodedEvents tm ts (fun _ => none) raws).foldl
          (applyWasmEvent chain_id) (Except.ok db) = Except.error msg →
        attemptWasmBatch true chain_id tm ts raws be db = db) := by
  refine ⟨runCursorTrace_mono bs delay wcfg hbs iters cur,
    fun _ _ _ _ _ _ _ => rfl, fun _ _ _ _ _ _ => rfl,
    fun _ _ _ _ _ _ _ => rfl, ?_, ?_⟩
  · intro chain_id tm ts raws be db db1 h
    constructor
    · unfold attemptWasmBatch
      rw [h]
      rfl
    · unfold processWasmBatch at h
      dsimp only at h
      rcases hfold : (collectDecodedEvents tm ts (fun _ => none) raws).foldl
          (applyWasmEvent chain_id) (Except.ok db) with msg | db0
      · rw [hfold] at h
        simp at h
      · rw [hfold] at h
        dsimp only at h
        injection h with h'
        exact ⟨db0, rfl, h'.symm⟩
  · intro chain_id tm ts raws be db msg h
    unfold attemptWasmBatch processWasmBatch
    dsimp only
    rw [h]
    rfl

/-- C3 (witness): a concrete two-iteration trace with batch size 2,
confirmation delay 1 and crash points, starting from both cursors at
0. -/
theorem chain_cursors_monotone_witness :
    (0 : Nat) < 2 ∧
    ((⟨0, 0⟩ : SyncCursors).last_processed ≤
      (runCursorTrace 2 1 true ⟨0, 0⟩ [(10, 1, 1), (20, 5, 5)]).last_processed ∧
     (⟨0, 0⟩ : SyncCursors).wasm_last_processed ≤
      (runCursorTrace 2 1 true ⟨0, 0⟩ [(10, 1, 1), (20, 5, 5)]).wasm_last_processed) :=
  ⟨by decide, (chain_cursors_monotone 2 1 true ⟨0, 0⟩ [(10, 1, 1), (20, 5, 5)] (by decide)).1⟩

/-- C4 (counterexample): a raw log whose topic-0 hash is in the topic
map but whose block-timestamp fetch fails (`get_block_timestamp`
returned `None`) is dropped — no reducer runs, no log document is
written — while the committed batch still advances the cursor to
`batch_end` past that log's block. -/
theorem registry_batch_ts_failure_cex :
    topicLookup sampleTopicMap sampleRawLog.topic0 = some "Created" ∧
    collectDecodedEvents sampleTopicMap (fun _ => none) (fun _ => none) [sampleRawLog] = [] ∧
    (processRegistryBatch 1 sampleTopicMap (fun _ => none) (fun _ => none) [sampleRawLog] 10
        sampleChainDB).logs = [] ∧
    (processRegistryBatch 1 sampleTopicMap (fun _ => none) (fun _ => none) [sampleRawLog] 10
        sampleChainDB).chains =
      [{ global_chain_id := 1, last_processed_block := 10,
         wasm_last_processed_block := 0, is_synced := false }] :=
  ⟨rfl, rfl, rfl, rfl⟩

/-- C4 (amended): every raw log whose topic-0 hash is in the topic map
and whose block timestamp resolves is decoded and its reducer applied,
in order, inside the batch's atomic transaction, before the cursor is
persisted to `batch_end`; a log is dropped (silently for the batch) only
when its topic is unrecognized or its timestamp fetch failed, and an
aborted batch leaves the store untouched. -/
theorem registry_batch_recognized_logs (chain_id : Nat) (tm : List (String × String))
    (ts : Nat → Option String) (rc : String → Option TxReceipt) (raws : List RawLog)
    (be : Nat) (db : DB) (raw : RawLog) (name : String) (t : String)
    (hmem : raw ∈ raws) (hname : topicLookup tm raw.topic0 = some name)
    (hts : ts raw.blockNumber = some t) :
    (name, decodeLog raw, t, receiptFor rc name raw) ∈ collectDecodedEvents tm ts rc raws ∧
    processRegistryBatch chain_id tm ts rc raws be db =
      update_chain_last_processed
        ((collectDecodedEvents tm ts rc raws).foldl (applyRegistryEvent chain_id) db)
        chain_id be ∧
    (∀ x ∈ collectDecodedEvents tm ts rc raws, ∃ raw', raw' ∈ raws ∧
        topicLookup tm raw'.topic0 = some x.1 ∧ ts raw'.blockNumber = some x.2.2.1) ∧
    attemptRegistryBatch false chain_id tm ts rc raws be db = db := by
  refine ⟨?_, rfl, ?_, rfl⟩
  · unfold collectDecodedEvents
    rw [List.mem_filterMap]
    refine ⟨raw, hmem, ?_⟩
    rw [hname, hts]
  · intro x hx
    unfold collectDecodedEvents at hx
    rw [List.mem_filterMap] at hx
    obtain ⟨a, ha, hfa⟩ := hx
    refine ⟨a, ha, ?_⟩
    rcases h1 : topicLookup tm a.topic0 with _ | nm
    · rw [h1] at hfa; simp at hfa
    · rcases h2 : ts a.blockNumber with _ | tt
      · rw [h1, h2] at hfa; simp at hfa
      · rw [h1, h2] at hfa
        simp only [Option.some.injEq] at hfa
        cases hfa
        exact ⟨by simp [h1], by simp [h2]⟩

/-- C4 (witness): the recognized raw log with a resolvable timestamp is
decoded into the batch's event list. -/
theorem registry_batch_recognized_logs_witness :
    ("Created", decodeLog sampleRawLog, "ts",
      receiptFor (fun _ => none) "Created" sampleRawLog) ∈
      collectDecodedEvents sampleTopicMap (fun _ => some "ts") (fun _ => none) [sampleRawLog] :=
  (registry_batch_recognized_logs 1 sampleTopicMap (fun _ => some "ts") (fun _ => none)
    [sampleRawLog] 10 sampleChainDB sampleRawLog "Created" "ts"
    (List.mem_singleton.mpr rfl) rfl rfl).1
